import Mathlib

/-!
Shallow embedding of the traefik-token-injector credential-resolution core:
nested object builder, REST/GraphQL request builders, token extractor,
token cache and auth dispatcher, with theorems checking the specification.
Go maps are modelled as association lists with overwrite-on-insert; the
wall clock and the HTTP transport are explicit parameters.
-/

namespace TokenInjector

/-- Go's `interface{}` values stored in a nested credential object:
either a string leaf or a nested `map[string]interface{}`. -/
inductive GoValue where
  | str (s : String)
  | obj (m : List (String × GoValue))

abbrev GoMap := List (String × GoValue)

/-- Reading a Go map: first (unique) binding of the key wins. -/
def mapGet (m : GoMap) (k : String) : Option GoValue :=
  match m with
  | [] => none
  | (k', v) :: rest => if k' = k then some v else mapGet rest k

/-- Writing a Go map: replace the binding in place, append if absent. -/
def mapSet (m : GoMap) (k : String) (v : GoValue) : GoMap :=
  match m with
  | [] => [(k, v)]
  | (k', v') :: rest => if k' = k then (k', v) :: rest else (k', v') :: mapSet rest k v

/-- `strings.Split(s, ".")` on the character list: splits at each dot,
producing n+1 (possibly empty) pieces; the empty string yields `[""]`. -/
def splitDotsList : List Char → List String
  | [] => [""]
  | c :: cs =>
    if c = '.' then "" :: splitDotsList cs
    else
      match splitDotsList cs with
      | [] => [String.mk [c]]
      | s :: rest => String.mk (c :: s.data) :: rest

/-- `strings.Split(path, ".")` as used by the request builder and the
token extractor. -/
def splitDots (s : String) : List String := splitDotsList s.data

/-- A flat credential pair: dotted-path key and string value
(`CredentialsPairType`). -/
structure CredentialsPairType where
  key : String
  value : String

/-- `setNestedValue` from request_builder.go, with the navigation loop
written as recursion on the split path: non-terminal segments descend
into an existing object (error if bound to a non-object) or materialize
a fresh one; the terminal segment is assigned with Go map semantics. -/
def setNestedParts (m : GoMap) (parts : List String) (value : String) : Except String GoMap :=
  match parts with
  | [] => .error "empty path"
  | [k] => .ok (mapSet m k (.str value))
  | k :: rest =>
    match mapGet m k with
    | some (.obj m2) =>
      match setNestedParts m2 rest value with
      | .ok m2' => .ok (mapSet m k (.obj m2'))
      | .error e => .error e
    | some (.str _) => .error ("path conflict: " ++ k ++ " is not an object")
    | none =>
      match setNestedParts [] rest value with
      | .ok m2' => .ok (mapSet m k (.obj m2'))
      | .error e => .error e

/-- The loop body of `BuildNestedObject`: apply `setNestedValue` for each
pair in order, wrapping the first failure. -/
def buildLoop (m : GoMap) : List CredentialsPairType → Except String GoMap
  | [] => .ok m
  | p :: ps =>
    match setNestedParts m (splitDots p.key) p.value with
    | .ok m' => buildLoop m' ps
    | .error e => .error ("failed to set nested value for key " ++ p.key ++ ": " ++ e)

/-- `BuildNestedObject` from request_builder.go. -/
def BuildNestedObject (credentialData : List CredentialsPairType) : Except String GoMap :=
  buildLoop [] credentialData

/-- Dotted-path lookup in a built nested object (the read-back view used
to state round-trip properties). -/
def lookupPath (m : GoMap) : List String → Option GoValue
  | [] => none
  | [k] => mapGet m k
  | k :: rest =>
    match mapGet m k with
    | some (.obj m2) => lookupPath m2 rest
    | _ => none

/-- The first dotted segment of a key. -/
def topKey (s : String) : String :=
  match splitDots s with
  | [] => ""
  | k :: _ => k

/-! ## Token extractor (token_extractor.go) -/

/-- Generic JSON values as produced by `json.Unmarshal` into `interface{}`:
null, booleans, numbers, strings, arrays, or string-keyed objects. -/
inductive JsonValue where
  | null
  | bool (b : Bool)
  | num (n : Int)
  | str (s : String)
  | arr (xs : List JsonValue)
  | obj (m : List (String × JsonValue))

/-- Key lookup in a parsed JSON object (keys are unique after parsing). -/
def jsonGet (m : List (String × JsonValue)) (k : String) : Option JsonValue :=
  match m with
  | [] => none
  | (k', v) :: rest => if k' = k then some v else jsonGet rest k

/-- The navigation loop of `ExtractTokenFromResponse`: each path segment
requires the current value to be an object containing that segment. -/
def extractLoop : JsonValue → List String → Except String JsonValue
  | current, [] => .ok current
  | current, part :: rest =>
    match current with
    | .obj m =>
      match jsonGet m part with
      | some next => extractLoop next rest
      | none => .error ("path segment " ++ part ++ " not found in response")
    | _ => .error ("path segment " ++ part ++ " is not an object")

/-- `ExtractTokenFromResponse` from token_extractor.go. The `json.Unmarshal`
step is abstracted by taking the parse result: `none` models a byte string
that is not valid JSON, `some j` a document that parsed to `j`. -/
def ExtractTokenFromResponse (doc : Option JsonValue) (tokenLocation : String) :
    Except String String :=
  if tokenLocation = "" then .error "tokenLocation is empty"
  else
    match doc with
    | none => .error "failed to parse response as JSON"
    | some data =>
      match extractLoop data (splitDots tokenLocation) with
      | .error e => .error e
      | .ok current =>
        match current with
        | .str token =>
          if token = "" then .error ("token value at path " ++ tokenLocation ++ " is empty")
          else .ok token
        | _ => .error ("token value at path " ++ tokenLocation ++ " is not a string")

/-- Navigation of a dotted path through a parsed JSON tree, written from
the specification: every hop must be an object containing the next
segment, and the result is the value reached at the end. -/
def specWalk : JsonValue → List String → Option JsonValue
  | v, [] => some v
  | .obj m, k :: rest =>
    match jsonGet m k with
    | some next => specWalk next rest
    | none => none
  | _, _ :: _ => none

/-! ## Token cache (token_cache.go) -/

/-- `CachedToken`: token value with optional expiry and refresh instants
(Unix seconds). -/
structure CachedToken where
  token : String
  expiresAt : Option Int
  refreshAt : Option Int
deriving DecidableEq

/-- The cache map from service identifier to cached token. The Go mutex
only serializes access and is not modelled; the map is the state. -/
abbrev CacheState := List (String × CachedToken)

def cacheLookup (c : CacheState) (serviceId : String) : Option CachedToken :=
  match c with
  | [] => none
  | (k, v) :: rest => if k = serviceId then some v else cacheLookup rest serviceId

def cacheInsert (c : CacheState) (serviceId : String) (entry : CachedToken) : CacheState :=
  match c with
  | [] => [(serviceId, entry)]
  | (k, v) :: rest =>
    if k = serviceId then (k, entry) :: rest else (k, v) :: cacheInsert rest serviceId entry

/-- `t != nil && *t <= now`: an optional deadline has passed. -/
def optDue (o : Option Int) (now : Int) : Bool :=
  match o with
  | some t => decide (t ≤ now)
  | none => false

/-- `TokenCache.Get`: returns (token, needsRefresh, exists). Expired
entries read as absent; entries past their refresh instant read as
present but needing refresh. The wall clock is the explicit `now`. -/
def cacheGet (c : CacheState) (serviceId : String) (refreshBuffer : Int) (now : Int) :
    String × Bool × Bool :=
  match cacheLookup c serviceId with
  | none => ("", false, false)
  | some cached =>
    if optDue cached.expiresAt now then ("", false, false)
    else if optDue cached.refreshAt now then (cached.token, true, true)
    else (cached.token, false, true)

/-- `TokenCache.Set`: with a positive TTL, expiry is `now + ttl` and the
refresh instant is `now + ttl - refreshBuffer`, clamped up to `now`;
with a nil or non-positive TTL both instants stay nil. -/
def cacheSet (c : CacheState) (serviceId token : String) (ttl : Option Int)
    (refreshBuffer : Int) (now : Int) : CacheState :=
  let cached : CachedToken :=
    match ttl with
    | some t =>
      if t > 0 then
        let expiresAt := now + t
        let refreshAt := now + t - refreshBuffer
        if refreshAt > now then ⟨token, some expiresAt, some refreshAt⟩
        else ⟨token, some expiresAt, some now⟩
      else ⟨token, none, none⟩
    | none => ⟨token, none, none⟩
  cacheInsert c serviceId cached

/-! ## REST and GraphQL request builders (request_builder.go) -/

/-- `ContentAttributeType`: a declared parameter. -/
structure ContentAttributeType where
  type : String
  value : String
  required : Bool
  location : String
  description : String
  defaultVal : String

/-- `ContentType`: request/response body declaration. -/
structure ContentType where
  contentType : String
  contentSchema : String
  description : String
  required : Bool

/-- `EndpointType`: a declared REST endpoint. -/
structure EndpointType where
  id : String
  method : String
  path : String
  description : String
  tags : List String
  parameters : List ContentAttributeType
  responseBody : Option ContentType
  requestBody : Option ContentType

/-- `GqlOperationType`: a declared GraphQL operation. -/
structure GqlOperationType where
  id : String
  name : String
  operationType : String
  description : String
  result : String

/-- `findCredentialValue`: first pair with an exactly equal key wins;
absent keys resolve to the empty string. -/
def findCredentialValue (credentialData : List CredentialsPairType) (key : String) : String :=
  match credentialData with
  | [] => ""
  | pair :: rest => if pair.key = key then pair.value else findCredentialValue rest key

/-- String-to-string Go map write (headers and query parameters). -/
def strMapSet (m : List (String × String)) (k v : String) : List (String × String) :=
  match m with
  | [] => [(k, v)]
  | (k', v') :: rest => if k' = k then (k', v) :: rest else (k', v') :: strMapSet rest k v

/-- The parameter loop of `BuildRESTRequest`: resolve each declared
parameter against the credential pairs, fail on a required parameter that
resolves to the empty string, and route the value by location into the
headers, the query map, or a `\x7bname\x7d` path substitution. -/
def paramsLoop (credentialData : List CredentialsPairType) (url : String)
    (headers queryParams : List (String × String)) :
    List ContentAttributeType →
      Except String (String × List (String × String) × List (String × String))
  | [] => .ok (url, headers, queryParams)
  | param :: rest =>
    let value := findCredentialValue credentialData param.value
    if value = "" ∧ param.required then
      .error ("required parameter " ++ param.value ++ " not found in credentials")
    else if param.location = "header" then
      paramsLoop credentialData url (strMapSet headers param.value value) queryParams rest
    else if param.location = "query" then
      paramsLoop credentialData url headers (strMapSet queryParams param.value value) rest
    else if param.location = "path" then
      paramsLoop credentialData (url.replace ("\x7b" ++ param.value ++ "\x7d") value)
        headers queryParams rest
    else
      paramsLoop credentialData url headers queryParams rest

/-- Append the collected query parameters as `?k=v&k=v` (the Go code
iterates an unordered map; the embedding fixes insertion order). -/
def appendQuery (url : String) (queryParams : List (String × String)) : String :=
  match queryParams with
  | [] => url
  | qp => url ++ "?" ++ String.intercalate "&" (qp.map fun kv => kv.1 ++ "=" ++ kv.2)

/-- The outcome of `BuildRESTRequest`. The body is kept as the built
nested object (its `json.Marshal` serialization, which cannot fail on
string/map values, is not modelled). -/
structure RestRequest where
  method : String
  url : String
  body : Option GoMap
  headers : List (String × String)

/-- `BuildRESTRequest` from request_builder.go: nil endpoint is an error;
a required request body is built from the credential pairs by
`BuildNestedObject` and sets `Content-Type`; then parameters are
resolved and routed, and query parameters appended to the URL. -/
def BuildRESTRequest (endpoint : Option EndpointType)
    (credentialData : List CredentialsPairType) (baseURL : String) :
    Except String RestRequest :=
  match endpoint with
  | none => .error "endpoint is nil"
  | some ep =>
    let url := baseURL ++ ep.path
    let bodyStep : Except String (Option GoMap × List (String × String)) :=
      match ep.requestBody with
      | some rb =>
        if rb.required then
          match BuildNestedObject credentialData with
          | .error e => .error ("failed to build request body: " ++ e)
          | .ok bodyObj => .ok (some bodyObj, strMapSet [] "Content-Type" rb.contentType)
        else .ok (none, [])
      | none => .ok (none, [])
    match bodyStep with
    | .error e => .error e
    | .ok (body, headers0) =>
      match paramsLoop credentialData url headers0 [] ep.parameters with
      | .error e => .error e
      | .ok (url', headers', queryParams) =>
        .ok ⟨ep.method, appendQuery url' queryParams, body, headers'⟩

/-- `BuildGraphQLRequest` from request_builder.go: query text is the
operation type and name; variables are the built nested object. -/
def BuildGraphQLRequest (operation : Option GqlOperationType)
    (credentialData : List CredentialsPairType) : Except String (String × GoMap) :=
  match operation with
  | none => .error "operation is nil"
  | some op =>
    match BuildNestedObject credentialData with
    | .error e => .error ("failed to build variables: " ++ e)
    | .ok vars => .ok (op.operationType ++ " " ++ op.name, vars)

/-! ## Auth handler (auth_handler.go) -/

/-- UTF-8 encoding of one character as byte values. -/
def utf8Bytes (c : Char) : List Nat :=
  let n := c.toNat
  if n < 0x80 then [n]
  else if n < 0x800 then
    [0xC0 + n / 0x40, 0x80 + n % 0x40]
  else if n < 0x10000 then
    [0xE0 + n / 0x1000, 0x80 + n / 0x40 % 0x40, 0x80 + n % 0x40]
  else
    [0xF0 + n / 0x40000, 0x80 + n / 0x1000 % 0x40, 0x80 + n / 0x40 % 0x40, 0x80 + n % 0x40]

/-- The bytes of a Go string (UTF-8). -/
def stringBytes (s : String) : List Nat := (s.data.map utf8Bytes).flatten

/-- The standard base64 alphabet. -/
def base64Alphabet : List Char :=
  "ABCDEFGHIJKLMNOPQRSTUVWXYZabcdefghijklmnopqrstuvwxyz0123456789+/".data

def base64Digit (n : Nat) : Char := base64Alphabet.getD n 'A'

/-- `base64.StdEncoding.EncodeToString`: three bytes to four alphabet
characters, with `=` padding for a final group of one or two bytes. -/
def base64Encode : List Nat → String
  | [] => ""
  | [b1] =>
    String.mk [base64Digit (b1 / 4), base64Digit (b1 % 4 * 16), '=', '=']
  | [b1, b2] =>
    String.mk [base64Digit (b1 / 4), base64Digit (b1 % 4 * 16 + b2 / 16),
      base64Digit (b2 % 16 * 4), '=']
  | b1 :: b2 :: b3 :: rest =>
    String.mk [base64Digit (b1 / 4), base64Digit (b1 % 4 * 16 + b2 / 16),
      base64Digit (b2 % 16 * 4 + b3 / 64), base64Digit (b3 % 64)] ++ base64Encode rest

/-- `GlobalConfig` restricted to the fields the auth handler reads. -/
structure GlobalConfig where
  cacheEnabled : Bool
  tokenRefreshBuffer : Int

/-- `EndpointNode`: union of a REST endpoint and a GraphQL operation. -/
structure EndpointNode where
  endpointType : Option EndpointType
  gqlOperationType : Option GqlOperationType

/-- `EndpointEdge` in the endpoint connection. -/
structure EndpointEdge where
  node : EndpointNode

/-- `EndpointConnection`: list of edges. -/
structure EndpointConnection where
  edges : List EndpointEdge

/-- `CredentialsType`: the declared credentials for one service. -/
structure CredentialsType where
  authType : String
  endpointType : String
  credentialData : List CredentialsPairType
  token : Option String
  tokenLocation : String
  tokenTtl : Option Int
  apiKey : String
  endpointData : Option EndpointConnection

/-- An HTTP response from the auth endpoint: status code and the JSON
parse of the body. The transport itself is a parameter: `none` models a
failed `client.Do`, `some r` a completed exchange returning `r`. -/
structure HttpResponse where
  status : Int
  body : Option JsonValue

/-- One iteration of the `handleBasicAuth` scan: a `username|user` match
overwrites the first accumulator, a `password|pass` match the second. -/
def basicScanStep (acc : String × String) (pair : CredentialsPairType) : String × String :=
  (if pair.key = "username" ∨ pair.key = "user" then pair.value else acc.1,
   if pair.key = "password" ∨ pair.key = "pass" then pair.value else acc.2)

/-- `handleBasicAuth`: a single scan over the credential pairs where each
`username|user` match and each `password|pass` match overwrites the
variable; fails when either resolved string is empty. -/
def handleBasicAuth (credentials : CredentialsType) : Except String String :=
  let scanned := credentials.credentialData.foldl basicScanStep ("", "")
  if scanned.1 = "" ∨ scanned.2 = "" then
    .error "username or password not found in credential data"
  else
    .ok ("Basic " ++ base64Encode (stringBytes (scanned.1 ++ ":" ++ scanned.2)))

/-- `callRESTAuthEndpoint`: build the REST request, run the transport,
accept status 200 or 201, and extract the token from the response body. -/
def callRESTAuthEndpoint (endpoint : EndpointType) (credentials : CredentialsType)
    (transport : Option HttpResponse) : Except String String :=
  match BuildRESTRequest (some endpoint) credentials.credentialData "" with
  | .error e => .error ("failed to build REST request: " ++ e)
  | .ok _ =>
    match transport with
    | none => .error "failed to execute request"
    | some resp =>
      if resp.status ≠ 200 ∧ resp.status ≠ 201 then
        .error "authentication endpoint returned non-2xx status"
      else
        match ExtractTokenFromResponse resp.body credentials.tokenLocation with
        | .error e => .error ("failed to extract token: " ++ e)
        | .ok token => .ok token

/-- `callGraphQLAuthEndpoint`: build the GraphQL request, run the
transport, accept only status 200, and extract the token. -/
def callGraphQLAuthEndpoint (operation : GqlOperationType) (credentials : CredentialsType)
    (transport : Option HttpResponse) : Except String String :=
  match BuildGraphQLRequest (some operation) credentials.credentialData with
  | .error e => .error ("failed to build GraphQL request: " ++ e)
  | .ok _ =>
    match transport with
    | none => .error "failed to execute request"
    | some resp =>
      if resp.status ≠ 200 then
        .error "GraphQL endpoint returned non-200 status"
      else
        match ExtractTokenFromResponse resp.body credentials.tokenLocation with
        | .error e => .error ("failed to extract token: " ++ e)
        | .ok token => .ok token

/-- The endpoint-fetching tail of `handleLoginAuth`: pick the first
declared endpoint edge, dispatch on the declared endpoint type matched
against the populated side of the node union, call it, and on success
store the token into the cache (when caching is enabled). -/
def loginFetch (cfg : GlobalConfig) (cache : CacheState) (serviceId : String)
    (credentials : CredentialsType) (transport : Option HttpResponse) (now : Int) :
    Except String String × CacheState :=
  match credentials.endpointData with
  | none => (.error "no authentication endpoint configured", cache)
  | some epData =>
    match epData.edges with
    | [] => (.error "no authentication endpoint configured", cache)
    | edge :: _ =>
      let node := edge.node
      let callResult : Except String String :=
        if h : credentials.endpointType = "REST" ∧ node.endpointType.isSome then
          callRESTAuthEndpoint (node.endpointType.get h.2) credentials transport
        else if h : credentials.endpointType = "GRAPHQL" ∧ node.gqlOperationType.isSome then
          callGraphQLAuthEndpoint (node.gqlOperationType.get h.2) credentials transport
        else .error "invalid endpoint configuration"
      match callResult with
      | .error e => (.error ("failed to obtain token: " ++ e), cache)
      | .ok token =>
        (.ok token,
         if cfg.cacheEnabled then
           cacheSet cache serviceId token credentials.tokenTtl cfg.tokenRefreshBuffer now
         else cache)

/-- `handleLoginAuth`: consult the cache when enabled (a present entry
not needing refresh is returned as-is); else a non-empty pre-existing
declared token is cached and returned; else fetch from the endpoint. -/
def handleLoginAuth (cfg : GlobalConfig) (cache : CacheState) (serviceId : String)
    (credentials : CredentialsType) (transport : Option HttpResponse) (now : Int) :
    Except String String × CacheState :=
  let cacheHit : Option String :=
    if cfg.cacheEnabled then
      let r := cacheGet cache serviceId cfg.tokenRefreshBuffer now
      if r.2.2 && !r.2.1 then some r.1 else none
    else none
  match cacheHit with
  | some token => (.ok token, cache)
  | none =>
    match credentials.token with
    | some t =>
      if t ≠ "" then
        (.ok t,
         if cfg.cacheEnabled then
           cacheSet cache serviceId t credentials.tokenTtl cfg.tokenRefreshBuffer now
         else cache)
      else loginFetch cfg cache serviceId credentials transport now
    | none => loginFetch cfg cache serviceId credentials transport now

/-- `handleAPITokenAuth`: the API key verbatim, error when empty. -/
def handleAPITokenAuth (credentials : CredentialsType) : Except String String :=
  if credentials.apiKey = "" then .error "apiKey is empty" else .ok credentials.apiKey

/-- `GetAuthToken`: dispatch on the declared auth type. Only the LOGIN
path touches the cache; the returned pair is (result, cache after). -/
def GetAuthToken (cfg : GlobalConfig) (cache : CacheState) (serviceId : String)
    (credentials : Option CredentialsType) (transport : Option HttpResponse) (now : Int) :
    Except String String × CacheState :=
  match credentials with
  | none => (.error "credentials are nil", cache)
  | some creds =>
    if creds.authType = "BASIC" then (handleBasicAuth creds, cache)
    else if creds.authType = "LOGIN" then
      handleLoginAuth cfg cache serviceId creds transport now
    else if creds.authType = "APITOKEN" then (handleAPITokenAuth creds, cache)
    else if creds.authType = "NONE" then (.ok "", cache)
    else (.error ("unsupported auth type: " ++ creds.authType), cache)

/-! ## Auxiliary specification-side definitions -/

/-- Whether assigning along `parts` would have to descend through a
segment already bound to a string: the navigation-conflict condition. -/
def pathConflict (m : GoMap) : List String → Bool
  | [] => false
  | [_] => false
  | k :: rest =>
    match mapGet m k with
    | some (.str _) => true
    | some (.obj m2) => pathConflict m2 rest
    | none => false

/-- Last element of a list, with a default for the empty list. -/
def lastValD : List String → String → String
  | [], d => d
  | v :: vs, _ => lastValD vs v

/-- The value of the last credential pair whose key is `username` or
`user` (empty when there is none). -/
def lastUserValue (ps : List CredentialsPairType) : String :=
  lastValD ((ps.filter fun p => decide (p.key = "username" ∨ p.key = "user")).map
    fun p => p.value) ""

/-- The value of the last credential pair whose key is `password` or
`pass` (empty when there is none). -/
def lastPassValue (ps : List CredentialsPairType) : String :=
  lastValD ((ps.filter fun p => decide (p.key = "password" ∨ p.key = "pass")).map
    fun p => p.value) ""

/-! ## Lemmas about Go map reads and writes -/

theorem mapGet_mapSet_self (m : GoMap) (k : String) (v : GoValue) :
    mapGet (mapSet m k v) k = some v := by
  induction m with
  | nil => simp [mapSet, mapGet]
  | cons kv rest ih =>
    obtain ⟨k', v'⟩ := kv
    by_cases h : k' = k
    · simp [mapSet, mapGet, h]
    · simp [mapSet, mapGet, h, ih]

theorem mapGet_mapSet_ne (m : GoMap) (k k' : String) (v : GoValue) (h : k' ≠ k) :
    mapGet (mapSet m k v) k' = mapGet m k' := by
  induction m with
  | nil =>
    simp only [mapSet, mapGet]
    rw [if_neg (fun hh : k = k' => h hh.symm)]
  | cons kv rest ih =>
    obtain ⟨k0, v0⟩ := kv
    simp only [mapSet]
    by_cases h0 : k0 = k
    · subst h0
      simp only [if_pos rfl, mapGet]
      rw [if_neg (fun hh : k0 = k' => h hh.symm), if_neg (fun hh : k0 = k' => h hh.symm)]
    · rw [if_neg h0]
      simp only [mapGet]
      by_cases h1 : k0 = k'
      · rw [if_pos h1, if_pos h1]
      · rw [if_neg h1, if_neg h1, ih]

/-! ## Lemmas about `setNestedValue` and `BuildNestedObject` -/

theorem splitDotsList_ne_nil (cs : List Char) : splitDotsList cs ≠ [] := by
  induction cs with
  | nil => simp [splitDotsList]
  | cons c rest ih =>
    simp only [splitDotsList]
    split
    · simp
    · split
      · simp
      · simp

theorem splitDots_ne_nil (s : String) : splitDots s ≠ [] := splitDotsList_ne_nil s.data

/-- If `setNestedValue` succeeds, reading the written path back from the
result yields exactly the written string value. -/
theorem setNestedParts_lookupPath :
    ∀ (parts : List String) (m m' : GoMap) (v : String),
      setNestedParts m parts v = .ok m' → lookupPath m' parts = some (.str v) := by
  intro parts
  induction parts with
  | nil => intro m m' v h; simp [setNestedParts] at h
  | cons k rest ih =>
    intro m m' v h
    cases rest with
    | nil =>
      simp only [setNestedParts, Except.ok.injEq] at h
      subst h
      simp [lookupPath, mapGet_mapSet_self]
    | cons k2 rest2 =>
      simp only [setNestedParts] at h
      split at h
      · split at h
        · rename_i m2' hrec
          simp only [Except.ok.injEq] at h
          subst h
          simp only [lookupPath, mapGet_mapSet_self]
          exact ih _ m2' v hrec
        · exact absurd h (by simp)
      · exact absurd h (by simp)
      · split at h
        · rename_i m2' hrec
          simp only [Except.ok.injEq] at h
          subst h
          simp only [lookupPath, mapGet_mapSet_self]
          exact ih [] m2' v hrec
        · exact absurd h (by simp)

/-- `setNestedValue` only rewrites the top-level slot of the head
segment: every other top-level key reads unchanged. -/
theorem setNestedParts_frame (m m' : GoMap) (k0 : String) (rest : List String) (v : String)
    (h : setNestedParts m (k0 :: rest) v = .ok m') :
    ∀ k, k ≠ k0 → mapGet m' k = mapGet m k := by
  intro k hk
  cases rest with
  | nil =>
    simp only [setNestedParts, Except.ok.injEq] at h
    subst h
    exact mapGet_mapSet_ne m k0 k (.str v) hk
  | cons k2 rest2 =>
    simp only [setNestedParts] at h
    split at h
    · split at h
      · rename_i m2' _
        simp only [Except.ok.injEq] at h
        subst h
        exact mapGet_mapSet_ne m k0 k (.obj m2') hk
      · exact absurd h (by simp)
    · exact absurd h (by simp)
    · split at h
      · rename_i m2' _
        simp only [Except.ok.injEq] at h
        subst h
        exact mapGet_mapSet_ne m k0 k (.obj m2') hk
      · exact absurd h (by simp)

/-- Setting a nonempty path into an empty map always succeeds. -/
theorem setNestedParts_nil_ok :
    ∀ (parts : List String) (v : String), parts ≠ [] →
      ∃ m', setNestedParts ([] : GoMap) parts v = .ok m' := by
  intro parts
  induction parts with
  | nil => intro v h; exact absurd rfl h
  | cons k rest ih =>
    intro v _
    cases rest with
    | nil => exact ⟨_, rfl⟩
    | cons k2 rest2 =>
      obtain ⟨m2', h2⟩ := ih v (by simp)
      refine ⟨mapSet [] k (.obj m2'), ?_⟩
      simp only [setNestedParts, mapGet]
      rw [h2]

/-- Setting a path whose head segment is absent always succeeds. -/
theorem setNestedParts_fresh_ok (m : GoMap) (k0 : String) (rest : List String) (v : String)
    (hfresh : mapGet m k0 = none) :
    ∃ m', setNestedParts m (k0 :: rest) v = .ok m' := by
  cases rest with
  | nil => exact ⟨_, rfl⟩
  | cons k2 rest2 =>
    obtain ⟨m2', h2⟩ := setNestedParts_nil_ok (k2 :: rest2) v (by simp)
    refine ⟨mapSet m k0 (.obj m2'), ?_⟩
    simp only [setNestedParts]
    rw [hfresh, h2]

/-- Dotted lookup only reads the head segment's top-level slot, so equal
reads there give equal lookups. -/
theorem lookupPath_congr_head (m m' : GoMap) (k : String) (rest : List String)
    (h : mapGet m' k = mapGet m k) :
    lookupPath m' (k :: rest) = lookupPath m (k :: rest) := by
  cases rest with
  | nil => simp [lookupPath, h]
  | cons k2 rest2 => simp [lookupPath, h]

/-- The build loop over pairs whose top-level segments are pairwise
distinct and absent from the accumulator: it succeeds, each pair reads
back at its own dotted path, and untouched top-level keys are framed. -/
theorem buildLoop_disjoint :
    ∀ (ps : List CredentialsPairType) (m : GoMap),
      (∀ p ∈ ps, mapGet m (topKey p.key) = none) →
      ps.Pairwise (fun p q => topKey p.key ≠ topKey q.key) →
      ∃ m', buildLoop m ps = .ok m' ∧
        (∀ p ∈ ps, lookupPath m' (splitDots p.key) = some (.str p.value)) ∧
        (∀ k, (∀ p ∈ ps, topKey p.key ≠ k) → mapGet m' k = mapGet m k) := by
  intro ps
  induction ps with
  | nil =>
    intro m _ _
    exact ⟨m, rfl, by simp, fun k _ => rfl⟩
  | cons p ps ih =>
    intro m hfresh hpair
    obtain ⟨k0, restP, hsplit⟩ := List.exists_cons_of_ne_nil (splitDots_ne_nil p.key)
    have htop : topKey p.key = k0 := by simp [topKey, hsplit]
    have hfresh0 : mapGet m k0 = none := by
      have := hfresh p (by simp)
      rwa [htop] at this
    obtain ⟨m1, h1⟩ := setNestedParts_fresh_ok m k0 restP p.value hfresh0
    have hpairhead : ∀ q ∈ ps, topKey q.key ≠ k0 := by
      intro q hq
      have := (List.pairwise_cons.mp hpair).1 q hq
      rw [htop] at this
      exact fun hh => this hh.symm
    have hframe1 : ∀ q ∈ ps, mapGet m1 (topKey q.key) = mapGet m (topKey q.key) := by
      intro q hq
      exact setNestedParts_frame m m1 k0 restP p.value h1 _ (hpairhead q hq)
    obtain ⟨m', hloop, hlook, hframe⟩ := ih m1
      (fun q hq => (hframe1 q hq).trans (hfresh q (by simp [hq])))
      (List.pairwise_cons.mp hpair).2
    refine ⟨m', ?_, ?_, ?_⟩
    · simp only [buildLoop, hsplit, h1]
      exact hloop
    · intro q hq
      rcases List.mem_cons.mp hq with hq | hq
      · subst hq
        rw [hsplit]
        have hm'k0 : mapGet m' k0 = mapGet m1 k0 := hframe k0 hpairhead
        rw [lookupPath_congr_head m1 m' k0 restP hm'k0, ← hsplit]
        rw [hsplit]
        exact setNestedParts_lookupPath _ m m1 q.value h1
      · exact hlook q hq
    · intro k hk
      have hm'k : mapGet m' k = mapGet m1 k := hframe k (fun q hq => hk q (by simp [hq]))
      rw [hm'k]
      exact setNestedParts_frame m m1 k0 restP p.value h1 k
        (by have := hk p (by simp); rw [htop] at this; exact fun hh => this hh.symm)

/-- Claim C4: for every list of credential pairs whose top-level key
prefixes are pairwise distinct, `BuildNestedObject` succeeds and looking
up each pair's dotted path in the result yields exactly that pair's
original string value. -/
theorem buildNestedObject_roundtrip :
    ∀ pairs : List CredentialsPairType,
      pairs.Pairwise (fun p q => topKey p.key ≠ topKey q.key) →
      ∃ m, BuildNestedObject pairs = .ok m ∧
        ∀ p ∈ pairs, lookupPath m (splitDots p.key) = some (.str p.value) := by
  intro pairs hpair
  obtain ⟨m, hloop, hlook, _⟩ := buildLoop_disjoint pairs [] (fun p _ => rfl) hpair
  exact ⟨m, hloop, hlook⟩

/-- Witness for the round-trip property on the two pairs
`user.name → john` and `pass → secret`. -/
theorem buildNestedObject_roundtrip_witness :
    ∃ m, BuildNestedObject [⟨"user.name", "john"⟩, ⟨"pass", "secret"⟩] = .ok m ∧
      ∀ p ∈ [(⟨"user.name", "john"⟩ : CredentialsPairType), ⟨"pass", "secret"⟩],
        lookupPath m (splitDots p.key) = some (.str p.value) :=
  buildNestedObject_roundtrip _ (by simp [List.pairwise_cons]; decide)

/-- The success of `setNestedValue` is characterized by the navigation
conflict predicate: a nonempty path succeeds exactly when no non-terminal
segment is currently bound to a string. -/
theorem setNestedParts_ok_iff :
    ∀ (parts : List String) (m : GoMap) (v : String),
      (∃ m', setNestedParts m parts v = .ok m') ↔
        parts ≠ [] ∧ pathConflict m parts = false := by
  intro parts
  induction parts with
  | nil =>
    intro m v
    simp [setNestedParts]
  | cons k rest ih =>
    intro m v
    cases rest with
    | nil =>
      constructor
      · intro _; exact ⟨by simp, rfl⟩
      · intro _; exact ⟨_, rfl⟩
    | cons k2 r2 =>
      cases hm : mapGet m k with
      | some val =>
        cases val with
        | obj m2 =>
          constructor
          · rintro ⟨m', h⟩
            refine ⟨by simp, ?_⟩
            simp only [pathConflict, hm]
            simp only [setNestedParts, hm] at h
            cases hrec : setNestedParts m2 (k2 :: r2) v with
            | ok m2' => exact ((ih m2 v).mp ⟨m2', hrec⟩).2
            | error e => rw [hrec] at h; exact absurd h (by simp)
          · rintro ⟨-, hc⟩
            simp only [pathConflict, hm] at hc
            obtain ⟨m2', hrec⟩ := (ih m2 v).mpr ⟨by simp, hc⟩
            exact ⟨mapSet m k (.obj m2'), by simp only [setNestedParts, hm, hrec]⟩
        | str s =>
          constructor
          · rintro ⟨m', h⟩
            simp only [setNestedParts, hm] at h
            exact absurd h (by simp)
          · rintro ⟨-, hc⟩
            simp only [pathConflict, hm] at hc
            exact absurd hc (by simp)
      | none =>
        constructor
        · rintro -
          exact ⟨by simp, by simp [pathConflict, hm]⟩
        · rintro -
          obtain ⟨m2', hrec⟩ := setNestedParts_nil_ok (k2 :: r2) v (by simp)
          exact ⟨mapSet m k (.obj m2'), by simp only [setNestedParts, hm, hrec]⟩

/-- Claim C1 counterexample: with the conflicting pairs in the other
order (`a.b → y` then `a → x`) the build does NOT report a conflict: it
succeeds, silently replacing the nested object bound at `a`, and the
earlier binding of `a.b` is gone. -/
theorem buildNestedObject_silent_overwrite :
    BuildNestedObject [⟨"a.b", "y"⟩, ⟨"a", "x"⟩] = .ok [("a", .str "x")] ∧
    lookupPath [("a", GoValue.str "x")] ["a", "b"] = none :=
  ⟨rfl, rfl⟩

/-- Claim C1 (amended): `BuildNestedObject` reports a path conflict
exactly when a pair's key must descend through a non-terminal segment
currently bound to a string; the terminal segment silently overwrites
any existing binding, so conflict detection depends on pair order:
`a → x` then `a.b → y` is an error, while `a.b → y` then `a → x`
succeeds and replaces the nested object bound at `a`. -/
theorem setNestedValue_conflict_semantics :
    (∀ (m : GoMap) (parts : List String) (v : String),
      (∃ m', setNestedParts m parts v = .ok m') ↔
        parts ≠ [] ∧ pathConflict m parts = false)
    ∧ (∀ (m : GoMap) (k v : String), setNestedParts m [k] v = .ok (mapSet m k (.str v)))
    ∧ BuildNestedObject [⟨"a", "x"⟩, ⟨"a.b", "y"⟩] =
        .error "failed to set nested value for key a.b: path conflict: a is not an object"
    ∧ BuildNestedObject [⟨"a.b", "y"⟩, ⟨"a", "x"⟩] = .ok [("a", .str "x")] :=
  ⟨fun m parts v => setNestedParts_ok_iff parts m v, fun _ _ _ => rfl, rfl, rfl⟩

/-- Claim C9: a pair with an empty key does NOT make `BuildNestedObject`
fail: `strings.Split` of the empty string yields `[""]`, so the dead
`len(parts) == 0` guard never fires and the build succeeds, binding the
empty-string key at top level. -/
theorem buildNestedObject_empty_key_accepted :
    BuildNestedObject [⟨"", "v"⟩] = .ok [("", .str "v")] := rfl

/-! ## Lemmas about the token extractor -/

/-- The extractor's navigation loop succeeds exactly when the
specification's walk reaches a value, and they agree on that value. -/
theorem extractLoop_ok_iff :
    ∀ (parts : List String) (j v : JsonValue),
      extractLoop j parts = .ok v ↔ specWalk j parts = some v := by
  intro parts
  induction parts with
  | nil =>
    intro j v
    simp [extractLoop, specWalk]
  | cons part rest ih =>
    intro j v
    cases j with
    | obj m =>
      cases hg : jsonGet m part with
      | some next => simp [extractLoop, specWalk, hg, ih]
      | none => simp [extractLoop, specWalk, hg]
    | null => simp [extractLoop, specWalk]
    | bool b => simp [extractLoop, specWalk]
    | num n => simp [extractLoop, specWalk]
    | str s => simp [extractLoop, specWalk]
    | arr xs => simp [extractLoop, specWalk]

/-- Claim C2: `ExtractTokenFromResponse` returns a token exactly when the
path is nonempty, the document parsed, walking every segment through
objects reaches a value, and that value is a non-empty string — and the
returned token is that string. In particular `data.login.token` on
`{"data":{"login":{"token":"abc"}}}` yields `abc`, and the same path on
`{"data":{}}` fails with the missing-segment error. -/
theorem extractTokenFromResponse_characterization :
    (∀ (doc : Option JsonValue) (loc : String) (t : String),
      ExtractTokenFromResponse doc loc = .ok t ↔
        loc ≠ "" ∧ ∃ j, doc = some j ∧
          specWalk j (splitDots loc) = some (.str t) ∧ t ≠ "")
    ∧ ExtractTokenFromResponse
        (some (.obj [("data", .obj [("login", .obj [("token", .str "abc")])])]))
        "data.login.token" = .ok "abc"
    ∧ ExtractTokenFromResponse (some (.obj [("data", .obj [])])) "data.login.token" =
        .error "path segment login not found in response" := by
  refine ⟨?_, rfl, rfl⟩
  intro doc loc t
  constructor
  · intro h
    simp only [ExtractTokenFromResponse] at h
    split at h
    · exact absurd h (by simp)
    · split at h
      · exact absurd h (by simp)
      · split at h
        · exact absurd h (by simp)
        · split at h
          · split at h
            · exact absurd h (by simp)
            · simp only [Except.ok.injEq] at h
              subst h
              exact ⟨by assumption, _, rfl,
                (extractLoop_ok_iff _ _ _).mp (by assumption), by assumption⟩
          · exact absurd h (by simp)
  · rintro ⟨hloc, j, rfl, hwalk, ht⟩
    have hloop := (extractLoop_ok_iff (splitDots loc) j (.str t)).mpr hwalk
    simp only [ExtractTokenFromResponse, if_neg hloc, hloop, if_neg ht]

/-! ## Lemmas about the token cache -/

theorem cacheLookup_insert_self (c : CacheState) (id : String) (e : CachedToken) :
    cacheLookup (cacheInsert c id e) id = some e := by
  induction c with
  | nil => simp [cacheInsert, cacheLookup]
  | cons kv rest ih =>
    obtain ⟨k, v⟩ := kv
    by_cases h : k = id
    · simp [cacheInsert, cacheLookup, h]
    · simp [cacheInsert, cacheLookup, h, ih]

/-- With a positive TTL larger than the buffer, `Set` stores expiry
`now + ttl` and refresh `now + ttl - buffer`. -/
theorem cacheSet_entry_buffered (c : CacheState) (id tok : String) (ttl buf now : Int)
    (httl : 0 < ttl) (hbuf : buf < ttl) :
    cacheSet c id tok (some ttl) buf now =
      cacheInsert c id ⟨tok, some (now + ttl), some (now + ttl - buf)⟩ := by
  simp only [cacheSet]
  rw [if_pos httl, if_pos (by omega : now + ttl - buf > now)]

/-- Claim C3: after `Set(id, t1, ttl = 20, buffer = 10)` at time `t0`,
`Get` at `t0` returns `(t1, needsRefresh = false, exists = true)`, at
`t0 + 11` returns `(t1, needsRefresh = true, exists = true)`, and at
`t0 + 21` the entry reads as absent. -/
theorem cacheSet_get_ttl_lifecycle :
    ∀ (c : CacheState) (id : String) (t0 buf : Int),
      cacheGet (cacheSet c id "t1" (some 20) 10 t0) id buf t0 = ("t1", false, true) ∧
      cacheGet (cacheSet c id "t1" (some 20) 10 t0) id buf (t0 + 11) = ("t1", true, true) ∧
      cacheGet (cacheSet c id "t1" (some 20) 10 t0) id buf (t0 + 21) = ("", false, false) := by
  intro c id t0 buf
  rw [cacheSet_entry_buffered c id "t1" 20 10 t0 (by omega) (by omega)]
  refine ⟨?_, ?_, ?_⟩
  · simp only [cacheGet, cacheLookup_insert_self, optDue]
    rw [if_neg (by simp), if_neg (by simp)]
  · simp only [cacheGet, cacheLookup_insert_self, optDue]
    rw [if_neg (by simp), if_pos (by simp; omega)]
  · simp only [cacheGet, cacheLookup_insert_self, optDue]
    rw [if_pos (by simp)]

/-- Claim C8: after `Set(id, t2, ttl = nil, buffer = 10)` the stored
entry has no expiry and no refresh instant, and `Get` at every time
returns `(t2, needsRefresh = false, exists = true)`. -/
theorem cacheSet_nil_ttl_indefinite :
    ∀ (c : CacheState) (id : String) (t0 buf now : Int),
      cacheLookup (cacheSet c id "t2" none 10 t0) id = some ⟨"t2", none, none⟩ ∧
      cacheGet (cacheSet c id "t2" none 10 t0) id buf now = ("t2", false, true) := by
  intro c id t0 buf now
  have hstore : cacheSet c id "t2" none 10 t0 = cacheInsert c id ⟨"t2", none, none⟩ := rfl
  rw [hstore]
  exact ⟨cacheLookup_insert_self c id _,
    by simp [cacheGet, cacheLookup_insert_self, optDue]⟩

/-- Claim C6: every entry stored with a positive TTL and a non-negative
buffer has both instants set with `refreshAt ≤ expiresAt`, and when
`ttl ≤ buffer` the refresh instant collapses to the time of the call. -/
theorem cacheSet_refresh_invariant (c : CacheState) (id tok : String) (ttl buf now : Int)
    (httl : 0 < ttl) (hbuf : 0 ≤ buf) :
    ∃ r x, cacheLookup (cacheSet c id tok (some ttl) buf now) id = some ⟨tok, some x, some r⟩ ∧
      r ≤ x ∧ (ttl ≤ buf → r = now) := by
  by_cases hc : now + ttl - buf > now
  · refine ⟨now + ttl - buf, now + ttl, ?_, by omega, by omega⟩
    simp only [cacheSet]
    rw [if_pos httl, if_pos hc]
    exact cacheLookup_insert_self c id _
  · refine ⟨now, now + ttl, ?_, by omega, fun _ => rfl⟩
    simp only [cacheSet]
    rw [if_pos httl, if_neg hc]
    exact cacheLookup_insert_self c id _

/-- Witness for the refresh invariant at `ttl = 20 ≤ buffer = 30`. -/
theorem cacheSet_refresh_invariant_witness :
    ∃ r x, cacheLookup (cacheSet [] "svc" "tok" (some 20) 30 100) "svc" =
        some ⟨"tok", some x, some r⟩ ∧ r ≤ x ∧ ((20 : Int) ≤ 30 → r = 100) :=
  cacheSet_refresh_invariant [] "svc" "tok" 20 30 100 (by norm_num) (by norm_num)

/-! ## The LOGIN path and the cache (auth_handler.go) -/

/-- The fetch tail of the LOGIN path only writes the cache after a
successful call: every error outcome returns the cache unchanged. -/
theorem loginFetch_error_cache (cfg : GlobalConfig) (cache : CacheState) (sid : String)
    (creds : CredentialsType) (tr : Option HttpResponse) (now : Int) (e : String)
    (c' : CacheState) (h : loginFetch cfg cache sid creds tr now = (.error e, c')) :
    c' = cache := by
  simp only [loginFetch] at h
  split at h
  · exact congrArg Prod.snd h.symm
  · split at h
    · exact congrArg Prod.snd h.symm
    · split at h
      · exact congrArg Prod.snd h.symm
      · exact absurd (congrArg Prod.fst h) (by simp)

/-- Every error outcome of `handleLoginAuth` returns the cache as it
was given: the only cache writes sit on success paths. -/
theorem handleLoginAuth_error_cache (cfg : GlobalConfig) (cache : CacheState) (sid : String)
    (creds : CredentialsType) (tr : Option HttpResponse) (now : Int) (e : String)
    (c' : CacheState) (h : handleLoginAuth cfg cache sid creds tr now = (.error e, c')) :
    c' = cache := by
  simp only [handleLoginAuth] at h
  split at h
  · exact absurd (congrArg Prod.fst h) (by simp)
  · split at h
    · split at h
      · exact absurd (congrArg Prod.fst h) (by simp)
      · exact loginFetch_error_cache cfg cache sid creds tr now e c' h
    · exact loginFetch_error_cache cfg cache sid creds tr now e c' h

/-- Claim C7: whenever the LOGIN path of `GetAuthToken` fails — no
endpoint configured, invalid endpoint configuration, request build
failure, transport failure, bad status, or extraction failure — the
token cache is returned exactly as it was. -/
theorem getAuthToken_login_failure_cache (cfg : GlobalConfig) (cache : CacheState)
    (sid : String) (creds : CredentialsType) (tr : Option HttpResponse) (now : Int)
    (e : String) (c' : CacheState) (hauth : creds.authType = "LOGIN")
    (h : GetAuthToken cfg cache sid (some creds) tr now = (.error e, c')) :
    c' = cache := by
  have hred : GetAuthToken cfg cache sid (some creds) tr now =
      handleLoginAuth cfg cache sid creds tr now := by
    simp only [GetAuthToken, hauth]
    rw [if_pos trivial, if_neg (by decide)]
  rw [hred] at h
  exact handleLoginAuth_error_cache cfg cache sid creds tr now e c' h

/-- Witness: a LOGIN failure (no endpoint configured) over a non-empty
cache leaves that cache exactly as it was. -/
theorem getAuthToken_login_failure_cache_witness :
    (GetAuthToken ⟨false, 10⟩ [("a", ⟨"x", none, none⟩)] "svc"
        (some ⟨"LOGIN", "REST", [], none, "", none, "", none⟩) none 0).2 =
      [("a", ⟨"x", none, none⟩)] :=
  getAuthToken_login_failure_cache ⟨false, 10⟩ [("a", ⟨"x", none, none⟩)] "svc"
    ⟨"LOGIN", "REST", [], none, "", none, "", none⟩ none 0
    "no authentication endpoint configured" _ rfl rfl

/-! ## Basic auth (auth_handler.go) -/

/-- The basic-auth scan is a last-match-wins resolution: folding the
scan step equals taking the value of the last matching pair per bucket,
with the accumulator as the default. -/
theorem basicScan_foldl :
    ∀ (ps : List CredentialsPairType) (u0 p0 : String),
      ps.foldl basicScanStep (u0, p0) =
        (lastValD ((ps.filter fun p => decide (p.key = "username" ∨ p.key = "user")).map
            fun p => p.value) u0,
         lastValD ((ps.filter fun p => decide (p.key = "password" ∨ p.key = "pass")).map
            fun p => p.value) p0) := by
  intro ps
  induction ps with
  | nil => intro u0 p0; simp [lastValD]
  | cons p ps ih =>
    intro u0 p0
    simp only [List.foldl_cons, List.filter_cons]
    rw [ih]
    by_cases hu : p.key = "username" ∨ p.key = "user" <;>
      by_cases hp : p.key = "password" ∨ p.key = "pass" <;>
        simp [basicScanStep, hu, hp, lastValD]

/-- Claim C5 counterexample: with two `username` pairs `u1` then `u2`
(and password `p`), BASIC auth encodes the LAST match `u2`, not the
first match `u1` as claimed. -/
theorem getAuthToken_basic_first_match_counterexample :
    GetAuthToken ⟨false, 10⟩ [] "svc"
        (some ⟨"BASIC", "", [⟨"username", "u1"⟩, ⟨"username", "u2"⟩, ⟨"password", "p"⟩],
          none, "", none, "", none⟩) none 0 =
      (.ok ("Basic " ++ base64Encode (stringBytes ("u2" ++ ":" ++ "p"))), []) ∧
    "Basic " ++ base64Encode (stringBytes ("u2" ++ ":" ++ "p")) ≠
      "Basic " ++ base64Encode (stringBytes ("u1" ++ ":" ++ "p")) :=
  ⟨rfl, by decide⟩

/-- Claim C5 (amended): for authType BASIC, `GetAuthToken` resolves the
username as the value of the LAST pair keyed `username` or `user` and
the password as the value of the LAST pair keyed `password` or `pass`
(each match overwrites the previous one); it fails exactly when either
resolved string is empty (in particular when absent), and otherwise
returns `Basic ` followed by base64(username `:` password); the pairs
`[{username,u},{password,p}]` yield `Basic ` + base64(`u:p`). -/
theorem getAuthToken_basic_last_match :
    ∀ (cfg : GlobalConfig) (cache : CacheState) (sid : String) (creds : CredentialsType)
      (tr : Option HttpResponse) (now : Int), creds.authType = "BASIC" →
      GetAuthToken cfg cache sid (some creds) tr now =
        ((if lastUserValue creds.credentialData = "" ∨ lastPassValue creds.credentialData = ""
          then .error "username or password not found in credential data"
          else .ok ("Basic " ++ base64Encode (stringBytes
            (lastUserValue creds.credentialData ++ ":" ++ lastPassValue creds.credentialData)))),
         cache) ∧
      GetAuthToken cfg cache sid
        (some ⟨"BASIC", "", [⟨"username", "u"⟩, ⟨"password", "p"⟩], none, "", none, "", none⟩)
        tr now = (.ok ("Basic " ++ base64Encode (stringBytes ("u" ++ ":" ++ "p"))), cache) := by
  intro cfg cache sid creds tr now hauth
  constructor
  · have hred : GetAuthToken cfg cache sid (some creds) tr now = (handleBasicAuth creds, cache) := by
      simp only [GetAuthToken, hauth]
      rw [if_pos trivial]
    rw [hred]
    simp only [handleBasicAuth, basicScan_foldl, lastUserValue, lastPassValue]
  · rfl

/-- Witness: BASIC with pairs `username → u`, `password → p` returns
the encoded `u:p`. -/
theorem getAuthToken_basic_last_match_witness :
    GetAuthToken ⟨true, 5⟩ [] "svc"
        (some ⟨"BASIC", "", [⟨"username", "u"⟩, ⟨"password", "p"⟩], none, "", none, "", none⟩)
        none 0 = (.ok ("Basic " ++ base64Encode (stringBytes ("u" ++ ":" ++ "p"))), []) :=
  (getAuthToken_basic_last_match ⟨true, 5⟩ [] "svc"
    ⟨"BASIC", "", [⟨"username", "u"⟩, ⟨"password", "p"⟩], none, "", none, "", none⟩
    none 0 rfl).2

/-! ## REST request builder parameters (request_builder.go) -/

/-- The parameter loop errors exactly when some declared parameter is
required and resolves (by exact key match, first pair wins) to the empty
string, for any accumulator state. -/
theorem paramsLoop_error_iff :
    ∀ (params : List ContentAttributeType) (cd : List CredentialsPairType)
      (url : String) (hs qs : List (String × String)),
      (∃ e, paramsLoop cd url hs qs params = .error e) ↔
        ∃ p ∈ params, p.required = true ∧ findCredentialValue cd p.value = "" := by
  intro params
  induction params with
  | nil => intro cd url hs qs; simp [paramsLoop]
  | cons p rest ih =>
    intro cd url hs qs
    by_cases hc : findCredentialValue cd p.value = "" ∧ p.required
    · constructor
      · intro _
        exact ⟨p, List.mem_cons_self p rest, hc.2, hc.1⟩
      · intro _
        exact ⟨"required parameter " ++ p.value ++ " not found in credentials",
          by simp only [paramsLoop]; rw [if_pos hc]⟩
    · have hhead : ¬(p.required = true ∧ findCredentialValue cd p.value = "") :=
        fun hx => hc ⟨hx.2, hx.1⟩
      simp only [paramsLoop]
      rw [if_neg hc]
      have hstep : ∃ u h2 q2,
          (if p.location = "header" then
            paramsLoop cd url (strMapSet hs p.value (findCredentialValue cd p.value)) qs rest
          else if p.location = "query" then
            paramsLoop cd url hs (strMapSet qs p.value (findCredentialValue cd p.value)) rest
          else if p.location = "path" then
            paramsLoop cd (url.replace ("\x7b" ++ p.value ++ "\x7d")
              (findCredentialValue cd p.value)) hs qs rest
          else paramsLoop cd url hs qs rest) = paramsLoop cd u h2 q2 rest := by
        by_cases h1 : p.location = "header"
        · exact ⟨_, _, _, by rw [if_pos h1]⟩
        · by_cases h2 : p.location = "query"
          · exact ⟨_, _, _, by rw [if_neg h1, if_pos h2]⟩
          · by_cases h3 : p.location = "path"
            · exact ⟨_, _, _, by rw [if_neg h1, if_neg h2, if_pos h3]⟩
            · exact ⟨_, _, _, by rw [if_neg h1, if_neg h2, if_neg h3]⟩
      obtain ⟨u, h2, q2, hstep⟩ := hstep
      rw [hstep, ih cd u h2 q2]
      constructor
      · rintro ⟨q, hq, hh⟩
        exact ⟨q, List.mem_cons_of_mem p hq, hh⟩
      · rintro ⟨q, hq, hh⟩
        rcases List.mem_cons.mp hq with rfl | hq2
        · exact absurd hh hhead
        · exact ⟨q, hq2, hh⟩

/-- A required parameter resolving to the empty string always fails the
whole REST build. -/
theorem buildRESTRequest_error_of_required_missing
    (ep : EndpointType) (cd : List CredentialsPairType) (baseURL : String)
    (hex : ∃ p ∈ ep.parameters, p.required = true ∧ findCredentialValue cd p.value = "") :
    ∃ e, BuildRESTRequest (some ep) cd baseURL = .error e := by
  simp only [BuildRESTRequest]
  split
  · exact ⟨_, rfl⟩
  · obtain ⟨e, he⟩ := (paramsLoop_error_iff ep.parameters cd _ _ _).mpr hex
    rw [he]
    exact ⟨e, rfl⟩

/-- A successful REST build means every required parameter resolved to a
non-empty string. -/
theorem buildRESTRequest_ok_required_nonempty
    (ep : EndpointType) (cd : List CredentialsPairType) (baseURL : String)
    (req : RestRequest) (hok : BuildRESTRequest (some ep) cd baseURL = .ok req) :
    ∀ p ∈ ep.parameters, p.required = true → findCredentialValue cd p.value ≠ "" := by
  intro p hp hreq hval
  obtain ⟨e, he⟩ := buildRESTRequest_error_of_required_missing ep cd baseURL ⟨p, hp, hreq, hval⟩
  rw [hok] at he
  exact absurd he (by simp)

/-- Claim C10: a required parameter fails the REST build exactly when
its resolved value is the empty string (absent and present-but-empty
pairs are rejected identically), while a non-required parameter with no
matching pair is still emitted into its header or query location with
an empty-string value rather than omitted. -/
theorem buildRESTRequest_param_semantics :
    (∀ (ep : EndpointType) (cd : List CredentialsPairType) (baseURL : String),
      (∃ p ∈ ep.parameters, p.required = true ∧ findCredentialValue cd p.value = "") →
      ∃ e, BuildRESTRequest (some ep) cd baseURL = .error e)
    ∧ (∀ (ep : EndpointType) (cd : List CredentialsPairType) (baseURL : String)
        (req : RestRequest), BuildRESTRequest (some ep) cd baseURL = .ok req →
        ∀ p ∈ ep.parameters, p.required = true → findCredentialValue cd p.value ≠ "")
    ∧ BuildRESTRequest
        (some ⟨"", "POST", "/login", "", [],
          [⟨"", "X-Opt", false, "header", "", ""⟩, ⟨"", "q", false, "query", "", ""⟩],
          none, none⟩) [] "http://h" =
        .ok ⟨"POST", "http://h/login?q=", none, [("X-Opt", "")]⟩ :=
  ⟨buildRESTRequest_error_of_required_missing, buildRESTRequest_ok_required_nonempty, rfl⟩

/-- Witness: a single required header parameter with no matching pair
fails the build. -/
theorem buildRESTRequest_param_semantics_witness :
    ∃ e, BuildRESTRequest
        (some ⟨"", "POST", "/login", "", [], [⟨"", "apikey", true, "header", "", ""⟩],
          none, none⟩) [] "" = .error e :=
  buildRESTRequest_param_semantics.1
    ⟨"", "POST", "/login", "", [], [⟨"", "apikey", true, "header", "", ""⟩], none, none⟩
    [] "" ⟨⟨"", "apikey", true, "header", "", ""⟩, by simp, rfl, rfl⟩

end TokenInjector
